import Mathlib

/-!
Verification of the detection/segmentation annotation pipelines of
`object_segmentation/detector/views.py` (Django views calling DETR and
Mask R-CNN), as a shallow embedding in Lean 4.

Modelling conventions:
* A decoded image is a function from pixel coordinates to an 8-bit
  3-channel pixel (`Pixel`); channel values are natural numbers
  (stored values are always < 256).
* Confidence scores are rationals (`ℚ`); the Python floats compared
  against 0.9 / 0.5 are modelled exactly.
* The per-instance segmentation masks are modelled at the point after
  `mask[0].mul(255).byte()` in the source: a byte value per pixel.
* The random color drawn by `np.random.randint(0, 255, (3,))` is an
  explicit parameter (one color per instance), following the spec's
  seedable-random-source abstraction.
-/

/-- One 3-channel pixel, channels in storage order (`c0`, `c1`, `c2`).
For the decoded `image_np` buffer the order is RGB; for the `image_cv`
working buffer it is BGR. -/
structure Pixel where
  c0 : Nat
  c1 : Nat
  c2 : Nat
deriving DecidableEq, Repr

/-- A decoded pixel buffer: column `x`, row `y` ↦ pixel. -/
def Image : Type := Nat → Nat → Pixel

/-- Embedding of `cv2.cvtColor(image_np, cv2.COLOR_RGB2BGR)` (views.py lines 41 and 77):
allocates a new buffer whose channels are the input's reversed. -/
def rgb2bgr (img : Image) : Image :=
  fun x y => ⟨(img x y).c2, (img x y).c1, (img x y).c0⟩

/-- One channel of `image_cv[mask > 128] = image_cv[mask > 128] * 0.5 + color * 0.5`
(views.py line 82): the uint8 operands are promoted to float, halved and
summed exactly (both are multiples of 1/2 below 2^53, so IEEE float64
arithmetic is exact here and is modelled by ℚ), and the store back into
the uint8 array truncates toward zero. -/
def blendChannel (old col : Nat) : Nat :=
  (Int.floor ((old : ℚ) * 0.5 + (col : ℚ) * 0.5)).toNat

/-- Per-pixel 50/50 blend of the overlay color `col` into the previous
pixel `old` (views.py line 82), channelwise. -/
def blendPixel (old col : Pixel) : Pixel :=
  ⟨blendChannel old.c0 col.c0, blendChannel old.c1 col.c1, blendChannel old.c2 col.c2⟩

/-- One Mask R-CNN instance as consumed by the drawing loop
(views.py line 78): its mask (byte values, after `mul(255).byte()`),
confidence score and class label. -/
structure SegInstance where
  mask : Nat → Nat → Nat
  score : ℚ
  label : Nat

/-- Unconditional overlay of one instance's mask with color `col`
(views.py line 82): every pixel whose mask byte exceeds 128 is replaced
by the 50/50 blend; every other pixel is left as it was. -/
def maskOverlay (img : Image) (inst : SegInstance) (col : Pixel) : Image :=
  fun x y => if 128 < inst.mask x y then blendPixel (img x y) col else img x y

/-- One iteration of the segmentation drawing loop
(views.py lines 78–82): the overlay is applied only when the instance's
score exceeds the 0.5 confidence threshold (line 79). -/
def segStep (img : Image) (inst : SegInstance) (col : Pixel) : Image :=
  if (1 : ℚ)/2 < inst.score then maskOverlay img inst col else img

/-- The whole segmentation drawing loop (views.py lines 78–82): a left
fold over the model's instances in output order, each paired with the
random color generated for it. -/
def segBlend (img : Image) (insts : List (SegInstance × Pixel)) : Image :=
  insts.foldl (fun acc p => segStep acc p.1 p.2) img

/-- One detection result as iterated by the drawing loop
(views.py line 42): score, class label and box corner coordinates
(already converted to integers as by `[int(i) for i in box.tolist()]`,
line 43). -/
structure DetResult where
  score : ℚ
  label : Nat
  box : Int × Int × Int × Int
deriving DecidableEq, Repr

/-- Modelled from the spec: the score filtering of
`detr_processor.post_process_object_detection(..., threshold=0.9)`
(views.py line 38) lives in the external `transformers` library, not in
this repository; the spec describes it as "keeping only detections with
score ≥ 0.9". -/
def postProcess (raw : List DetResult) : List DetResult :=
  raw.filter (fun r => (9 : ℚ)/10 ≤ r.score)

/-- The box color `(0, 255, 0)` used by both `cv2.rectangle` and
`cv2.putText` (views.py lines 46–48); green in the BGR working buffer. -/
def greenBGR : Pixel := ⟨0, 255, 0⟩

/-- Pixel membership in the thickness-2 border drawn by
`cv2.rectangle(image_cv, (box[0], box[1]), (box[2], box[3]), (0,255,0), 2)`
(views.py line 46). The exact OpenCV rasterization of the stroke is
abstracted into this concrete predicate (inside the box, within one
pixel of an edge); no claim below depends on its precise shape. -/
def onRectBorder (b : Int × Int × Int × Int) (x y : Nat) : Bool :=
  let x1 := b.1; let y1 := b.2.1; let x2 := b.2.2.1; let y2 := b.2.2.2
  (x1 ≤ (x : Int) && (x : Int) ≤ x2 && y1 ≤ (y : Int) && (y : Int) ≤ y2)
    && ((x : Int) ≤ x1 + 1 || x2 - 1 ≤ (x : Int)
        || (y : Int) ≤ y1 + 1 || y2 - 1 ≤ (y : Int))

/-- Embedding of `cv2.rectangle` on the working buffer (views.py line 46). -/
def cvRectangle (img : Image) (b : Int × Int × Int × Int) : Image :=
  fun x y => if onRectBorder b x y then greenBGR else img x y

/-- Pixel membership in the label text drawn by
`cv2.putText(image_cv, ..., (box[0], box[1] - 10), ...)` (views.py
lines 47–48). Glyph rasterization is abstracted into a concrete text
region anchored at `(box[0], box[1] - 10)`; no claim below depends on
its precise shape. -/
def inTextRegion (b : Int × Int × Int × Int) (x y : Nat) : Bool :=
  let x1 := b.1; let y1 := b.2.1
  (x1 ≤ (x : Int) && (x : Int) ≤ x1 + 60
    && y1 - 20 ≤ (y : Int) && (y : Int) ≤ y1 - 10)

/-- Embedding of `cv2.putText` on the working buffer (views.py lines 47–48). -/
def cvPutText (img : Image) (b : Int × Int × Int × Int) : Image :=
  fun x y => if inTextRegion b x y then greenBGR else img x y

/-- The two pixel buffers live during the detection drawing phase:
`image_np` (the decoded RGB array from line 33) and `image_cv` (the BGR
working copy from line 41). -/
structure DetBuffers where
  orig : Image
  work : Image

/-- One iteration of the detection drawing loop (views.py lines 42–48):
both `cv2.rectangle` and `cv2.putText` receive `image_cv` as their
destination, so only the working buffer is updated. -/
def detDrawStep (st : DetBuffers) (r : DetResult) : DetBuffers :=
  { orig := st.orig, work := cvPutText (cvRectangle st.work r.box) r.box }

/-- The detection drawing phase (views.py lines 41–48): convert the
decoded image to BGR, then fold the drawing loop over the
post-processed results in model-output order. -/
def detectionDraw (img : Image) (raw : List DetResult) : DetBuffers :=
  (postProcess raw).foldl detDrawStep { orig := img, work := rgb2bgr img }

/-- The annotated detection image that is saved (views.py line 53). -/
def detectionOutput (img : Image) (raw : List DetResult) : Image :=
  (detectionDraw img raw).work

/-- The list of results for which the drawing loop body executes — one
rectangle and one label per element of the post-processed list
(views.py line 42). -/
def detectionDrawn (raw : List DetResult) : List DetResult :=
  postProcess raw

/-- The whole segmentation drawing phase (views.py lines 77–82):
convert the decoded image to BGR, then blend the instances. -/
def segmentationOutput (img : Image) (insts : List (SegInstance × Pixel)) : Image :=
  segBlend (rgb2bgr img) insts

/-- Modelled from the spec: the error taxonomy of the pipelines. The
view code in src has no explicit error handling — a failed
`Image.open` or a malformed model output raises an exception that
propagates uncaught out of the view — so the named failure modes
(`DecodeError`, `InferenceError`, `SegmentationInferenceError`) come
from the spec's sections 4.1, 4.2 and 7. -/
inductive PipeError where
  | DecodeError
  | InferenceError
  | SegmentationInferenceError
deriving DecidableEq, Repr

/-- The detection pipeline seen as a fallible function (views.py
lines 32–53): the decode step (`Image.open(...).convert("RGB")`,
line 32) is an `Option Image`, the inference-plus-post-processing step
(lines 34–38) an `Option (List DetResult)` (`none` when the model
yields no usable tensor shape); a failure at either step aborts the
call before any drawing or writing happens, and there is exactly one
attempt at each step. -/
def detectPipeline (decoded : Option Image)
    (infer : Image → Option (List DetResult)) : Except PipeError Image :=
  match decoded with
  | none => Except.error PipeError.DecodeError
  | some img =>
    match infer img with
    | none => Except.error PipeError.InferenceError
    | some raw => Except.ok (detectionOutput img raw)

/-- The segmentation pipeline seen as a fallible function (views.py
lines 70–87), under the same failure semantics as `detectPipeline`
but failing with `SegmentationInferenceError` on malformed model
output. -/
def segmentPipeline (decoded : Option Image)
    (infer : Image → Option (List (SegInstance × Pixel))) : Except PipeError Image :=
  match decoded with
  | none => Except.error PipeError.DecodeError
  | some img =>
    match infer img with
    | none => Except.error PipeError.SegmentationInferenceError
    | some insts => Except.ok (segmentationOutput img insts)

/-- Embedding of `fs.save(image_file.name, image_file)` (views.py
lines 28 and 66). Django's `FileSystemStorage.save` never overwrites:
when a file named `name` already exists in the media directory it
stores the upload under an alternative available name — the original
name with a random seven-character suffix inserted before the
extension — here passed explicitly as `alt` (the randomness is
abstracted into a parameter). When `name` is free, the upload is
stored under `name` itself. -/
def fsSave (existing : List String) (name alt : String) : String :=
  if name ∈ existing then alt else name

/-- Embedding of `processed_filename = f"processed_{filename}"`
(views.py lines 51 and 85): the output name derived from the name the
storage actually assigned to the upload. -/
def processedFilename (saved : String) : String :=
  "processed_" ++ saved

/-- The output filename of one full handler run: the upload is stored
first (views.py line 28), and the annotated image is written under
`processed_` + the storage-assigned name (lines 51–53). -/
def runProcessedName (existing : List String) (name alt : String) : String :=
  processedFilename (fsSave existing name alt)

/-- An HTTP request as the handlers inspect it (views.py lines 25
and 63): its method and its uploaded files, keyed by field name and
carrying the client-supplied file name. -/
structure HttpRequest where
  method : String
  files : List (String × String)

/-- The observable outcome of one handler call: the media directory's
contents after the call (file names), how many model inference passes
ran, and which template is rendered. -/
structure HandlerOutcome where
  media : List String
  inferenceRuns : Nat
  template : String
deriving DecidableEq, Repr

/-- The `detection` view handler (views.py lines 24–60), reduced to
its observable effects: on `POST` with a file under field `image` it
stores the upload, runs one inference pass and writes the processed
image (lines 25–53), rendering `detection_result.html`; on any other
request it only renders the upload form `detection.html` (line 60). -/
def detectionHandler (req : HttpRequest) (media : List String)
    (alt : String) : HandlerOutcome :=
  if req.method == "POST" && (req.files.lookup "image").isSome then
    let name := (req.files.lookup "image").getD ""
    let saved := fsSave media name alt
    { media := processedFilename saved :: saved :: media
      inferenceRuns := 1
      template := "detection_result.html" }
  else
    { media := media, inferenceRuns := 0, template := "detection.html" }

/-- The `segmentation` view handler (views.py lines 62–94), reduced to
its observable effects exactly as `detectionHandler`, with templates
`segmentation_result.html` / `segmentation.html`. -/
def segmentationHandler (req : HttpRequest) (media : List String)
    (alt : String) : HandlerOutcome :=
  if req.method == "POST" && (req.files.lookup "image").isSome then
    let name := (req.files.lookup "image").getD ""
    let saved := fsSave media name alt
    { media := processedFilename saved :: saved :: media
      inferenceRuns := 1
      template := "segmentation_result.html" }
  else
    { media := media, inferenceRuns := 0, template := "segmentation.html" }

/-! Test fixtures used by the closed witness theorems. -/

/-- A constant test image. -/
def testImg : Image := fun _ _ => ⟨1, 2, 3⟩

/-- A mask that is fully on (byte value 255 everywhere). -/
def fullMask : Nat → Nat → Nat := fun _ _ => 255

/-- An instance below the 0.5 confidence threshold. -/
def lowInst : SegInstance := ⟨fullMask, 2/5, 1⟩

/-- An instance above the 0.5 confidence threshold. -/
def highInst : SegInstance := ⟨fullMask, 3/4, 1⟩

/-- A first test overlay color. -/
def testCol : Pixel := ⟨10, 20, 30⟩

/-- A second test overlay color. -/
def testCol2 : Pixel := ⟨200, 100, 50⟩

/-- A detection result below the 0.9 score threshold. -/
def lowDet : DetResult := ⟨1/2, 0, (0, 0, 5, 5)⟩

/-- Helper: a segmentation drawing loop in which no instance passes the
confidence test leaves the buffer untouched. -/
theorem segBlend_no_kept (b : Image) (insts : List (SegInstance × Pixel))
    (h : ∀ p ∈ insts, ¬ ((1 : ℚ)/2 < p.1.score)) : segBlend b insts = b := by
  induction insts generalizing b with
  | nil => rfl
  | cons p rest ih =>
    have hp : ¬ ((1 : ℚ)/2 < p.1.score) := h p (by simp)
    have hstep : segStep b p.1 p.2 = b := by
      unfold segStep; rw [if_neg hp]
    calc segBlend b (p :: rest) = segBlend (segStep b p.1 p.2) rest := rfl
      _ = segBlend b rest := by rw [hstep]
      _ = b := ih b (fun q hq => h q (by simp [hq]))

/-- C1: in the detection pipeline a bounding box is drawn for a model
result exactly when its score is at least 0.9: the drawing loop runs
once per post-processed result (second conjunct), and post-processing
keeps exactly the raw results with score ≥ 0.9 (first conjunct). -/
theorem detection_drawn_iff (img : Image) (raw : List DetResult) (r : DetResult) :
    (r ∈ detectionDrawn raw ↔ r ∈ raw ∧ (9 : ℚ)/10 ≤ r.score) ∧
    detectionDraw img raw =
      (detectionDrawn raw).foldl detDrawStep { orig := img, work := rgb2bgr img } := by
  constructor
  · unfold detectionDrawn postProcess
    simp [List.mem_filter]
  · rfl

/-- C2: in the segmentation pipeline an instance's mask is blended into
the output exactly when its score is strictly greater than 0.5: the
loop body applies the overlay when the score exceeds 0.5 and leaves the
image untouched otherwise. -/
theorem segStep_blend_iff (inst : SegInstance) (col : Pixel) (img : Image) :
    ((1 : ℚ)/2 < inst.score → segStep img inst col = maskOverlay img inst col) ∧
    (inst.score ≤ (1 : ℚ)/2 → segStep img inst col = img) := by
  constructor
  · intro h; unfold segStep; rw [if_pos h]
  · intro h; unfold segStep; rw [if_neg (not_lt.mpr h)]

/-- Witness for C2 at concrete instances with scores 3/4 and 2/5. -/
theorem segStep_blend_iff_witness :
    segStep testImg highInst testCol = maskOverlay testImg highInst testCol ∧
    segStep testImg lowInst testCol = testImg :=
  ⟨(segStep_blend_iff highInst testCol testImg).1 (by norm_num [highInst]),
   (segStep_blend_iff lowInst testCol testImg).2 (by norm_num [lowInst])⟩

/-- C4: for a kept instance, the blend touches exactly the pixels whose
mask byte exceeds 128: such pixels become the 50/50 blend of their
previous value with the instance's color, and every pixel with a mask
byte at most 128 is unchanged by that instance. -/
theorem segStep_mask_pixels (inst : SegInstance) (col : Pixel) (img : Image)
    (x y : Nat) (hs : (1 : ℚ)/2 < inst.score) :
    (128 < inst.mask x y → segStep img inst col x y = blendPixel (img x y) col) ∧
    (inst.mask x y ≤ 128 → segStep img inst col x y = img x y) := by
  have hstep : segStep img inst col = maskOverlay img inst col := by
    unfold segStep; rw [if_pos hs]
  rw [hstep]
  constructor
  · intro h
    simp only [maskOverlay]
    rw [if_pos h]
  · intro h
    simp only [maskOverlay]
    rw [if_neg (by omega)]

/-- Witness for C4 at a fully-on mask and pixel (0, 0). -/
theorem segStep_mask_pixels_witness :
    segStep testImg highInst testCol 0 0 = blendPixel (testImg 0 0) testCol :=
  (segStep_mask_pixels highInst testCol testImg 0 0 (by norm_num [highInst])).1
    (by decide)

/-- C5: instances are blended by a left fold in the model's output
order (first conjunct), and where a later kept instance's binarized
mask covers a pixel, its blend is applied on top of whatever the
earlier instances produced there — last drawn wins (second conjunct). -/
theorem segBlend_last_wins (img : Image) (xs : List (SegInstance × Pixel))
    (inst : SegInstance) (col : Pixel) (x y : Nat)
    (hs : (1 : ℚ)/2 < inst.score) (hm : 128 < inst.mask x y) :
    segBlend img ((inst, col) :: xs) = segBlend (segStep img inst col) xs ∧
    segBlend img (xs ++ [(inst, col)]) x y = blendPixel (segBlend img xs x y) col := by
  constructor
  · rfl
  · have happ : segBlend img (xs ++ [(inst, col)]) = segStep (segBlend img xs) inst col := by
      unfold segBlend
      rw [List.foldl_append]
      rfl
    rw [happ]
    unfold segStep
    rw [if_pos hs]
    simp only [maskOverlay]
    rw [if_pos hm]

/-- Witness for C5: two overlapping kept instances, the second color
wins at pixel (0, 0). -/
theorem segBlend_last_wins_witness :
    segBlend testImg ([(highInst, testCol)] ++ [(highInst, testCol2)]) 0 0
      = blendPixel (segBlend testImg [(highInst, testCol)] 0 0) testCol2 :=
  (segBlend_last_wins testImg [(highInst, testCol)] highInst testCol2 0 0
    (by norm_num [highInst]) (by decide)).2

/-- C3: when no model result qualifies (every detection score fails the
≥ 0.9 test, every instance score fails the > 0.5 test), neither drawing
loop body runs, so each pipeline's output image is pixel-identical to
the decoded input converted from RGB to BGR. -/
theorem no_qualifying_identity (img : Image) (raw : List DetResult)
    (insts : List (SegInstance × Pixel))
    (hdet : ∀ r ∈ raw, ¬ ((9 : ℚ)/10 ≤ r.score))
    (hseg : ∀ p ∈ insts, ¬ ((1 : ℚ)/2 < p.1.score)) :
    detectionOutput img raw = rgb2bgr img ∧
    segmentationOutput img insts = rgb2bgr img := by
  constructor
  · unfold detectionOutput detectionDraw
    have hfil : postProcess raw = [] := by
      unfold postProcess
      rw [List.filter_eq_nil_iff]
      intro a ha
      simpa using hdet a ha
    rw [hfil]
    rfl
  · unfold segmentationOutput
    exact segBlend_no_kept _ _ hseg

/-- Witness for C3: one low-scoring detection and one low-scoring
instance, both outputs equal the BGR conversion of the input. -/
theorem no_qualifying_identity_witness :
    detectionOutput testImg [lowDet] = rgb2bgr testImg ∧
    segmentationOutput testImg [(lowInst, testCol)] = rgb2bgr testImg :=
  no_qualifying_identity testImg [lowDet] [(lowInst, testCol)]
    (by intro r hr; simp only [List.mem_singleton] at hr; subst hr; norm_num [lowDet])
    (by intro p hp; simp only [List.mem_singleton] at hp; subst hp; norm_num [lowInst])

/-- Counterexample for C6: on a second run whose upload reuses the name
`cat.jpg` of a file already in the media directory, the storage assigns
an alternative name, so the annotated output is not written to
`processed_cat.jpg` — the previous output is not overwritten, and the
derived filename is not the prefix plus the original uploaded name. -/
theorem processed_name_cex :
    runProcessedName ["cat.jpg"] "cat.jpg" "cat_x1y2z3w.jpg" ≠
      "processed_" ++ "cat.jpg" := by
  decide

/-- C6 (amended): the annotated output is written to `processed_` plus
the storage-assigned name of the upload; this equals `processed_` plus
the original name exactly when no file with that name already exists,
and a re-run whose original name is already taken writes to a fresh
`processed_` name instead of overwriting the previous output. -/
theorem processed_name_amended (existing : List String) (name alt : String) :
    (name ∉ existing → runProcessedName existing name alt = "processed_" ++ name) ∧
    (name ∈ existing → runProcessedName existing name alt = "processed_" ++ alt) ∧
    (name ∈ existing → alt ≠ name →
      runProcessedName existing name alt ≠ "processed_" ++ name) := by
  refine ⟨?_, ?_, ?_⟩
  · intro h; unfold runProcessedName fsSave processedFilename; rw [if_neg h]
  · intro h; unfold runProcessedName fsSave processedFilename; rw [if_pos h]
  · intro h hne heq
    apply hne
    unfold runProcessedName fsSave processedFilename at heq
    rw [if_pos h] at heq
    have hd := congrArg String.data heq
    simp only [String.data_append] at hd
    exact String.ext (List.append_cancel_left hd)

/-- Witness for C6 (amended): a first run with a fresh name lands on
`processed_cat.jpg`; a second run with the same original name does not. -/
theorem processed_name_amended_witness :
    runProcessedName [] "cat.jpg" "cat_x1y2z3w.jpg" = "processed_" ++ "cat.jpg" ∧
    runProcessedName ["cat.jpg"] "cat.jpg" "cat_x1y2z3w.jpg" ≠ "processed_" ++ "cat.jpg" :=
  ⟨(processed_name_amended [] "cat.jpg" "cat_x1y2z3w.jpg").1 (by decide),
   (processed_name_amended ["cat.jpg"] "cat.jpg" "cat_x1y2z3w.jpg").2.2
     (by decide) (by decide)⟩

/-- C7: a decode failure makes either pipeline fail with `DecodeError`;
a model output with no usable tensor shape makes the detection pipeline
fail with `InferenceError` and the segmentation pipeline with
`SegmentationInferenceError`; the error is the pipeline's immediate
result (each step is attempted exactly once, with no retry), and a
failed call never also yields an annotated image. -/
theorem pipeline_failure_semantics (decoded : Option Image)
    (inferD : Image → Option (List DetResult))
    (inferS : Image → Option (List (SegInstance × Pixel))) :
    (decoded = none →
      detectPipeline decoded inferD = Except.error PipeError.DecodeError ∧
      segmentPipeline decoded inferS = Except.error PipeError.DecodeError) ∧
    (∀ img, decoded = some img → inferD img = none →
      detectPipeline decoded inferD = Except.error PipeError.InferenceError) ∧
    (∀ img, decoded = some img → inferS img = none →
      segmentPipeline decoded inferS = Except.error PipeError.SegmentationInferenceError) ∧
    (∀ e, detectPipeline decoded inferD = Except.error e →
      ∀ out, ¬ detectPipeline decoded inferD = Except.ok out) ∧
    (∀ e, segmentPipeline decoded inferS = Except.error e →
      ∀ out, ¬ segmentPipeline decoded inferS = Except.ok out) := by
  refine ⟨?_, ?_, ?_, ?_, ?_⟩
  · rintro rfl; exact ⟨rfl, rfl⟩
  · rintro img rfl h; simp [detectPipeline, h]
  · rintro img rfl h; simp [segmentPipeline, h]
  · intro e he out hok; rw [he] at hok; exact Except.noConfusion hok
  · intro e he out hok; rw [he] at hok; exact Except.noConfusion hok

/-- Witness for C7: a failing decode and a failing inference on a
concrete image produce exactly the named errors. -/
theorem pipeline_failure_semantics_witness :
    detectPipeline none (fun _ => none) = Except.error PipeError.DecodeError ∧
    segmentPipeline none (fun _ => none) = Except.error PipeError.DecodeError ∧
    detectPipeline (some testImg) (fun _ => none) = Except.error PipeError.InferenceError ∧
    segmentPipeline (some testImg) (fun _ => none)
      = Except.error PipeError.SegmentationInferenceError :=
  ⟨((pipeline_failure_semantics none (fun _ => none) (fun _ => none)).1 rfl).1,
   ((pipeline_failure_semantics none (fun _ => none) (fun _ => none)).1 rfl).2,
   (pipeline_failure_semantics (some testImg) (fun _ => none) (fun _ => none)).2.1
     testImg rfl rfl,
   (pipeline_failure_semantics (some testImg) (fun _ => none) (fun _ => none)).2.2.1
     testImg rfl rfl⟩

/-- C8: the detection drawing phase never mutates the decoded image
buffer: every iteration draws on the BGR working copy only, so after
the whole loop the original buffer is exactly the input. -/
theorem detection_orig_unchanged (img : Image) (raw : List DetResult) :
    (detectionDraw img raw).orig = img := by
  unfold detectionDraw
  generalize postProcess raw = l
  have key : ∀ (l : List DetResult) (st : DetBuffers),
      (l.foldl detDrawStep st).orig = st.orig := by
    intro l
    induction l with
    | nil => intro st; rfl
    | cons a t ih => intro st; exact ih _
  exact key l _

/-- C9: any request that is not a POST carrying a file under field
`image` leaves the media directory untouched, runs zero inference
passes, and renders the upload-form page, for both handlers. -/
theorem non_post_no_effect (req : HttpRequest) (media : List String) (alt : String)
    (h : ¬ (req.method = "POST" ∧ (req.files.lookup "image").isSome = true)) :
    detectionHandler req media alt =
      { media := media, inferenceRuns := 0, template := "detection.html" } ∧
    segmentationHandler req media alt =
      { media := media, inferenceRuns := 0, template := "segmentation.html" } := by
  have hb : (req.method == "POST" && (req.files.lookup "image").isSome) = false := by
    cases hm : (req.method == "POST") <;>
      cases hf : (req.files.lookup "image").isSome <;> simp_all
  constructor <;> simp [detectionHandler, segmentationHandler, hb]

/-- Witness for C9: a GET request with no files against a nonempty
media directory. -/
theorem non_post_no_effect_witness :
    detectionHandler ⟨"GET", []⟩ ["a.jpg"] "b.jpg" =
      { media := ["a.jpg"], inferenceRuns := 0, template := "detection.html" } ∧
    segmentationHandler ⟨"GET", []⟩ ["a.jpg"] "b.jpg" =
      { media := ["a.jpg"], inferenceRuns := 0, template := "segmentation.html" } :=
  non_post_no_effect ⟨"GET", []⟩ ["a.jpg"] "b.jpg" (by decide)

/-- C10: one blended channel equals the floor (truncation toward zero —
the value is nonnegative) of half the previous value plus half the
overlay color's value; since the float arithmetic is exact, this is the
natural-number average, and it never exceeds 255 when both operands are
8-bit values. -/
theorem blendChannel_exact (old col : Nat) (h1 : old ≤ 255) (h2 : col ≤ 255) :
    blendChannel old col = (old + col) / 2 ∧ blendChannel old col ≤ 255 := by
  have key : blendChannel old col = (old + col) / 2 := by
    unfold blendChannel
    have e : (old : ℚ) * 0.5 + (col : ℚ) * 0.5 = ((old + col : ℕ) : ℚ) / ((2 : ℕ) : ℚ) := by
      push_cast; ring
    rw [e, Rat.floor_natCast_div_natCast]
    exact Int.toNat_natCast _
  exact ⟨key, by rw [key]; omega⟩

/-- Witness for C10 at channel values 200 and 101. -/
theorem blendChannel_exact_witness :
    blendChannel 200 101 = (200 + 101) / 2 ∧ blendChannel 200 101 ≤ 255 :=
  blendChannel_exact 200 101 (by decide) (by decide)
